import Mathlib

/-!
Shallow embedding of the orientation-consensus simulator
(`agent.py`, `consensus_environment.py`) for checking the repository's
specification.  Numeric agent state is embedded over an arbitrary linear
ordered field (the source works on IEEE floats; all claims treat them as
exact reals); the trigonometric parts (`geometry` helpers, fitness,
radar bearings) are embedded over `ℝ`.  The `geometry` module is not
part of the provided sources, so its operations are modelled from the
specification and marked as such.
-/

namespace Consensus

/-- A 2D point / vector with real components (source: `geometry.Point`,
modelled from the spec since `geometry.py` is not under `src/`). -/
structure Point (α : Type) where
  x : α
  y : α
deriving DecidableEq

/-- One robot of the consensus map (source: `agent.py`, class `Agent`).
`radar` is the 8-slot message register; `none` is Python's `None`. -/
structure Agent (α : Type) where
  agent_id : ℕ
  heading : α
  angular_vel : α
  radius : α
  location : Point α
  mode : ℕ
  radar_range : α
  msg_rcv_1 : Option α
  msg_rcv_2 : Option α
  msg_sen_1 : α
  msg_sen_2 : α
  radar : List (Option α)
deriving DecidableEq

/-- The environment holding the agent population (source:
`consensus_environment.py`, class `Environment`). -/
structure Environment (α : Type) where
  length : α
  height : α
  agent_list : List (Agent α)
deriving DecidableEq

variable {α : Type} [LinearOrderedField α]

/-- Source: `agent.py` line 10, `MAX_ANGULAR_VEL = 3.0`. -/
def MAX_ANGULAR_VEL (α : Type) [LinearOrderedField α] : α := 3

/-- Source: `agent.py` line 40, the fixed `radar_angle` sector table. -/
def radar_angle : List (α × α) :=
  [(345, 375), (15, 45), (45, 90), (90, 150), (150, 210), (210, 270),
   (270, 315), (315, 345)]

/-- Source: `agent.py` lines 43-45: `radar_position` starts with `0.0`
and appends the midpoint of every later sector's bounds. -/
def radar_position : List α :=
  0 :: ((radar_angle (α := α)).drop 1).map (fun s => (s.1 + s.2) / 2)

/-- Helper for `find_radar_index`: scan the sector table in order and
return the index of the first sector strictly containing the angle. -/
def findRadarIndexAux (angle : α) : List (α × α) → ℕ → Option ℕ
  | [], _ => none
  | span :: rest, i =>
    if span.1 < angle ∧ angle < span.2 then some i
    else findRadarIndexAux angle rest (i + 1)

/-- Source: `agent.py` lines 161-170, `Agent.find_radar_index`: first
sector of `radar_angle` whose bounds strictly contain the angle, in
table order; the `for`/`else` returns 0 when no sector matches. -/
def find_radar_index (angle : α) : ℕ :=
  (findRadarIndexAux angle (radar_angle (α := α)) 0).getD 0

/-- Source: `agent.py` lines 70-113, `Agent.apply_outputs`: update the
mode, angular velocity (clamped), heading (normalized once) and the two
quantized outgoing message slots from the 4-element ANN output vector. -/
def Agent.apply_outputs (self : Agent α) (outputs : List α) : Agent α :=
  let mode' : ℕ := if outputs.getD 0 0 < 1/2 then 0 else 1
  let new_ang_vel := outputs.getD 1 0 - 1/2
  let angular_vel' :=
    if MAX_ANGULAR_VEL α ≤ new_ang_vel then MAX_ANGULAR_VEL α
    else if new_ang_vel < -(MAX_ANGULAR_VEL α) then -(MAX_ANGULAR_VEL α)
    else new_ang_vel
  let h1 := self.heading + 10 * angular_vel'
  let heading' := if h1 < 0 then h1 + 360 else if 360 ≤ h1 then h1 - 360 else h1
  let msg_sen_1' :=
    if outputs.getD 2 0 < 1/6 then 0
    else if outputs.getD 2 0 < 3/6 then 1/3
    else if outputs.getD 2 0 < 5/6 then 2/3
    else 1
  let msg_sen_2' :=
    if outputs.getD 3 0 < 1/6 then 0
    else if outputs.getD 3 0 < 3/6 then 1/3
    else if outputs.getD 3 0 < 5/6 then 2/3
    else 1
  { self with
    mode := mode'
    angular_vel := angular_vel'
    heading := heading'
    msg_sen_1 := msg_sen_1'
    msg_sen_2 := msg_sen_2' }

/-- Source: `consensus_environment.py` lines 62-74: the min/max scan of
`consensus_verified` over every robot's heading.  The `elif` skips the
max test whenever the min was lowered. -/
def consensusLoop : List α → α → α → α × α
  | [], mn, mx => (mn, mx)
  | h :: rest, mn, mx =>
    if h < mn then consensusLoop rest h mx
    else if mx < h then consensusLoop rest mn h
    else consensusLoop rest mn mx

/-- Source: `consensus_environment.py` lines 58-74,
`Environment.consensus_verified`: `max_heading - min_heading < 5` over
the raw heading values, both accumulators seeded with
`agent_list[0].heading` (an empty list raises in the source and is
never produced there; it is mapped to `true` and all claims assume a
nonempty population). -/
def Environment.consensus_verified (env : Environment α) : Bool :=
  match env.agent_list with
  | [] => true
  | a0 :: _ =>
    let p := consensusLoop (env.agent_list.map Agent.heading) a0.heading a0.heading
    decide (p.2 - p.1 < 5)

/-- Modelled from the spec: `geometry.deg_to_rad` (the `geometry`
module is not under `src/`) converts degrees to radians. -/
noncomputable def deg_to_rad (d : ℝ) : ℝ := d * Real.pi / 180

/-- Modelled from the spec: `geometry.Point.angle` (the `geometry`
module is not under `src/`) returns the polar angle of the vector from
the origin to this point, in degrees, normalized to `[0, 360)`. -/
noncomputable def Point.angle (p : Point ℝ) : ℝ :=
  let a := Complex.arg ⟨p.x, p.y⟩ * (180 / Real.pi)
  if a < 0 then a + 360 else a

/-- Modelled from the spec: `geometry.Point.distance` (the `geometry`
module is not under `src/`) returns the Euclidean distance. -/
noncomputable def Point.distance (p q : Point ℝ) : ℝ :=
  Real.sqrt ((p.x - q.x) ^ 2 + (p.y - q.y) ^ 2)

/-- Modelled from the spec: `geometry.sum_points` (the `geometry`
module is not under `src/`) returns the component-wise sum. -/
def sum_points (p q : Point ℝ) : Point ℝ := ⟨p.x + q.x, p.y + q.y⟩

/-- Source: `agent.py` lines 143-159, `Agent.calculate_msg_to`: bearing
from self to the aimed robot, minus self's heading, normalized once,
then the representative bearing of the covering sector. -/
noncomputable def Agent.calculate_msg_to (self aimed : Agent ℝ) : ℝ :=
  let vect : Point ℝ :=
    ⟨aimed.location.x - self.location.x, aimed.location.y - self.location.y⟩
  let angle := vect.angle
  let rel0 := angle - self.heading
  let rel_angle := if rel0 < 0 then rel0 + 360 else if 360 < rel0 then rel0 - 360 else rel0
  (radar_position (α := ℝ)).getD (find_radar_index rel_angle) 0

/-- Source: `agent.py` lines 115-139, `Agent.update_radar`.  The
source's reset loop `for radar in self.radar: radar = None` rebinds the
loop variable only and leaves the register unchanged, so no reset is
performed here.  The message lands at `find_radar_index` of
`self.heading - angle` (the bearing of receiver minus sender), and the
two incoming message slots are copied from the sender according to its
mode; any other mode only prints and changes nothing. -/
noncomputable def Agent.update_radar (self sender : Agent ℝ) : Agent ℝ :=
  let vect : Point ℝ :=
    ⟨self.location.x - sender.location.x, self.location.y - sender.location.y⟩
  let angle := vect.angle
  let rel_angle := self.heading - angle
  let self' := { self with
    radar := self.radar.set (find_radar_index rel_angle)
      (some (sender.calculate_msg_to self)) }
  if sender.mode = 0 then
    { self' with msg_rcv_1 := sender.msg_rcv_1, msg_rcv_2 := sender.msg_rcv_2 }
  else if sender.mode = 1 then
    { self' with msg_rcv_1 := some sender.msg_sen_1, msg_rcv_2 := some sender.msg_sen_2 }
  else
    self'

/-- Source: `agent.py` lines 175-195, `Agent.individual_fitness`. -/
noncomputable def Agent.individual_fitness (self : Agent ℝ) (avg_heading : ℝ) : ℝ :=
  let abs_term := |deg_to_rad self.heading - deg_to_rad avg_heading|
  let min_term := min (2 * Real.pi - abs_term) abs_term
  let left_term := 1 - min_term / Real.pi
  let right_term := 1 - |self.angular_vel|
  left_term * right_term

/-- Source: `consensus_environment.py` lines 46-50: the robots with a
different id within distance 80 of `robot`. -/
noncomputable def robots_in_range (agents : List (Agent ℝ)) (robot : Agent ℝ) :
    List (Agent ℝ) :=
  agents.filter (fun o =>
    decide (o.agent_id ≠ robot.agent_id) && decide (robot.location.distance o.location ≤ 80))

/-- Source: `consensus_environment.py` lines 44-56: the per-robot loop
of `communication`, processing the agent at each index in order.  The
random `randint(0, len-1)` pick is supplied by the oracle `sel`, taken
modulo the candidate count (the source guarantees that range); an empty
candidate list makes `randint(0, -1)` raise in the source, embedded as
`none`. -/
noncomputable def commAux (sel : ℕ → ℕ) : ℕ → ℕ → List (Agent ℝ) →
    Option (List (Agent ℝ))
  | 0, _, agents => some agents
  | fuel + 1, i, agents =>
    match agents.get? i with
    | none => some agents
    | some robot =>
      let inR := robots_in_range agents robot
      if inR.length = 0 then none
      else
        match inR.get? (sel i % inR.length) with
        | none => none
        | some selected => commAux sel fuel (i + 1) (agents.set i (robot.update_radar selected))

/-- Source: `consensus_environment.py` lines 40-56,
`Environment.communication`. -/
noncomputable def Environment.communication (env : Environment ℝ) (sel : ℕ → ℕ) :
    Option (Environment ℝ) :=
  (commAux sel env.agent_list.length 0 env.agent_list).map
    (fun l => { env with agent_list := l })

/-- Source: `consensus_environment.py` lines 76-86,
`Environment.avg_heading`: angle of the sum of the per-robot heading
unit vectors (an empty list raises in the source; mapped to 0). -/
noncomputable def Environment.avg_heading (env : Environment ℝ) : ℝ :=
  match env.agent_list with
  | [] => 0
  | r0 :: rest =>
    (rest.foldl
      (fun s r => sum_points s ⟨Real.cos (deg_to_rad r.heading), Real.sin (deg_to_rad r.heading)⟩)
      ⟨Real.cos (deg_to_rad r0.heading), Real.sin (deg_to_rad r0.heading)⟩).angle

/-- Source: `consensus_environment.py` lines 89-101,
`Environment.fitness`: mean of the individual fitnesses, with the
average heading computed once. -/
noncomputable def Environment.fitness (env : Environment ℝ) : ℝ :=
  let R : ℝ := env.agent_list.length
  let avg := env.avg_heading
  (1 / R) * (env.agent_list.foldl (fun s r => s + r.individual_fitness avg) 0)

/-- Source: `consensus_environment.py` lines 114-124: the trial loop of
`consensus_simulation_evaluate`.  `stepf i env` is the effect of
`consensus_simulation_step` at step index `i` (the policy network and
the communication randomness are folded into it); the pair also carries
the environment so that early termination is observable. -/
noncomputable def evalLoop (stepf : ℕ → Environment ℝ → Environment ℝ × Bool) :
    ℕ → ℕ → Environment ℝ → ℝ × Environment ℝ
  | 0, _, env => (if env.fitness ≤ 1/100 then 1/100 else env.fitness, env)
  | fuel + 1, i, env =>
    let r := stepf i env
    if r.2 then (1, r.1) else evalLoop stepf fuel (i + 1) r.1

/-- Source: `consensus_environment.py` lines 104-124,
`consensus_simulation_evaluate` (default budget 600 steps). -/
noncomputable def consensus_simulation_evaluate
    (stepf : ℕ → Environment ℝ → Environment ℝ × Bool) (time_steps : ℕ)
    (env : Environment ℝ) : ℝ × Environment ℝ :=
  evalLoop stepf time_steps 0 env

/-- The environment after running steps `i, i+1, ..., i+n-1` of `stepf`
in sequence, ignoring the consensus flags. -/
noncomputable def iterSteps (stepf : ℕ → Environment ℝ → Environment ℝ × Bool)
    (i : ℕ) (env : Environment ℝ) : ℕ → Environment ℝ
  | 0 => env
  | n + 1 => (stepf (i + n) (iterSteps stepf i env n)).1

/-- Source: `agent.py` lines 17-50, `Agent.__init__`: constructor with
the source defaults `radius = 8`, `radar_range = 80`, `mode` forced to
1 (the constructor argument is ignored by the body), empty message
registers and an all-`None` radar register of length
`len(radar_angle) = 8`. -/
def Agent.init (location : Point α) (agent_id : ℕ)
    (heading angular_vel radius radar_range : α) : Agent α :=
  { agent_id := agent_id
    heading := heading
    angular_vel := angular_vel
    radius := radius
    location := location
    mode := 1
    radar_range := radar_range
    msg_rcv_1 := none
    msg_rcv_2 := none
    msg_sen_1 := 0
    msg_sen_2 := 0
    radar := List.replicate 8 none }

/-- A concrete real-valued agent at the origin, used as evaluation input. -/
noncomputable def sampleAgentR : Agent ℝ := Agent.init ⟨0, 0⟩ 0 0 0 8 80

/-- A concrete rational-valued agent at the origin, used as evaluation input. -/
def sampleAgentQ : Agent ℚ := Agent.init ⟨0, 0⟩ 0 0 0 8 80

/-- Two-agent environment with headings 10 and 14.9 degrees. -/
def envHeading149 : Environment ℚ :=
  ⟨100, 100, [Agent.init ⟨0, 0⟩ 0 10 0 8 80, Agent.init ⟨1, 0⟩ 1 (149/10) 0 8 80]⟩

/-- Two-agent environment with headings 10 and 15 degrees. -/
def envHeading150 : Environment ℚ :=
  ⟨100, 100, [Agent.init ⟨0, 0⟩ 0 10 0 8 80, Agent.init ⟨1, 0⟩ 1 15 0 8 80]⟩

/-- Receiver for the stale-radar scenario: heading 30, at the origin. -/
noncomputable def recvC3 : Agent ℝ := Agent.init ⟨0, 0⟩ 0 30 0 8 80

/-- First sender for the stale-radar scenario, at `(-1, 0)`: the vector
to the receiver has bearing 0, relative angle 30, radar sector 1. -/
noncomputable def sendC3a : Agent ℝ := Agent.init ⟨-1, 0⟩ 1 0 0 8 80

/-- Second sender for the stale-radar scenario, at `(0, 1)`: the vector
to the receiver has bearing 270, relative angle -240, radar sector 0. -/
noncomputable def sendC3b : Agent ℝ := Agent.init ⟨0, 1⟩ 2 0 0 8 80

/-- Receiver for the bearing-direction scenario: heading 20, at the origin. -/
noncomputable def recvC5 : Agent ℝ := Agent.init ⟨0, 0⟩ 0 20 0 8 80

/-- Sender for the bearing-direction scenario, at `(0, -1)`: the vector
to the receiver has bearing 90. -/
noncomputable def sendC5 : Agent ℝ := Agent.init ⟨0, -1⟩ 1 0 0 8 80

/-- A step function that reports consensus at once, leaving the
environment unchanged; used as evaluation input for the trial driver. -/
def stepfW : ℕ → Environment ℝ → Environment ℝ × Bool := fun _ e => (e, true)

/-- An empty concrete environment, used as evaluation input. -/
def envW : Environment ℝ := ⟨100, 100, []⟩

/-- First agent of the two-agent communication environment, at `(0, 0)`. -/
noncomputable def agentComA : Agent ℝ := Agent.init ⟨0, 0⟩ 0 0 0 8 80

/-- Second agent of the two-agent communication environment, at `(0, 1)`,
within distance 1 of the first. -/
noncomputable def agentComB : Agent ℝ := Agent.init ⟨0, 1⟩ 1 0 0 8 80

/-- Two-agent environment where each agent has a neighbour in range. -/
noncomputable def envCom : Environment ℝ := ⟨100, 100, [agentComA, agentComB]⟩

/-- The location and identity of an agent: the data `communication`
uses to build candidate-sender lists. -/
def agentProj (a : Agent ℝ) : Point ℝ × ℕ := (a.location, a.agent_id)

/-- Spec-side predicate for C8: the bounds of sector `i` of
`radar_angle` contain the bearing, with sector 0's bounds
`[345, 375)` read as wrapping to cover `[345, 360) ∪ [0, 15)`. -/
def sectorContains (i : ℕ) (a : α) : Prop :=
  match i with
  | 0 => (345 ≤ a ∧ a < 360) ∨ (0 ≤ a ∧ a < 15)
  | 1 => 15 ≤ a ∧ a < 45
  | 2 => 45 ≤ a ∧ a < 90
  | 3 => 90 ≤ a ∧ a < 150
  | 4 => 150 ≤ a ∧ a < 210
  | 5 => 210 ≤ a ∧ a < 270
  | 6 => 270 ≤ a ∧ a < 315
  | 7 => 315 ≤ a ∧ a < 345
  | _ => False

/-- Spec-side predicate for C8: the bearing is one of the shared sector
boundary values of the `radar_angle` table. -/
def isBoundaryAngle (a : α) : Prop :=
  a = 15 ∨ a = 45 ∨ a = 90 ∨ a = 150 ∨ a = 210 ∨ a = 270 ∨ a = 315 ∨ a = 345

/-- C2.  The claim's example row for the four-bin quantizer is false on
the code at input 0.2: since `0.2 ≥ 1/6`, both channels quantize 0.2 to
`1/3`, not to the claimed 0 (and 0.5 quantizes to `2/3`, not `1/3`). -/
theorem apply_outputs_quantizer_spec_counterexample :
    ((sampleAgentR.apply_outputs [0, 0, 2/10, 5/10]).msg_sen_1 = 1/3 ∧
      (1/3 : ℝ) ≠ 0) ∧
    ((sampleAgentR.apply_outputs [0, 0, 2/10, 5/10]).msg_sen_2 = 2/3 ∧
      (2/3 : ℝ) ≠ 1/3) := by
  refine ⟨⟨?_, by norm_num⟩, ⟨?_, by norm_num⟩⟩ <;>
    norm_num [Agent.apply_outputs, sampleAgentR, Agent.init]

/-- C2 (amended).  For each message channel, the quantizer of
`apply_outputs` maps the inputs 0.0, 0.2, 0.5, 0.7, 0.9, 1.0 to the
outgoing message values 0, 1/3, 2/3, 2/3, 1, 1 respectively. -/
theorem apply_outputs_quantizer_amended (a : Agent α) (x : α) :
    ((a.apply_outputs [x, x, 0, 0]).msg_sen_1 = 0 ∧
      (a.apply_outputs [x, x, 0, 0]).msg_sen_2 = 0) ∧
    ((a.apply_outputs [x, x, 2/10, 2/10]).msg_sen_1 = 1/3 ∧
      (a.apply_outputs [x, x, 2/10, 2/10]).msg_sen_2 = 1/3) ∧
    ((a.apply_outputs [x, x, 5/10, 5/10]).msg_sen_1 = 2/3 ∧
      (a.apply_outputs [x, x, 5/10, 5/10]).msg_sen_2 = 2/3) ∧
    ((a.apply_outputs [x, x, 7/10, 7/10]).msg_sen_1 = 2/3 ∧
      (a.apply_outputs [x, x, 7/10, 7/10]).msg_sen_2 = 2/3) ∧
    ((a.apply_outputs [x, x, 9/10, 9/10]).msg_sen_1 = 1 ∧
      (a.apply_outputs [x, x, 9/10, 9/10]).msg_sen_2 = 1) ∧
    ((a.apply_outputs [x, x, 1, 1]).msg_sen_1 = 1 ∧
      (a.apply_outputs [x, x, 1, 1]).msg_sen_2 = 1) := by
  norm_num [Agent.apply_outputs]

/-- The source's three-branch clamp equals `min 3 (max (-3) v)`. -/
theorem clampEq (v : α) :
    (if (3:α) ≤ v then (3:α) else if v < -3 then (-3:α) else v) = min 3 (max (-3) v) := by
  split_ifs with hc1 hc2
  · rw [max_eq_right (by linarith : (-3:α) ≤ v), min_eq_left (by linarith)]
  · rw [max_eq_left (by linarith : v ≤ (-3:α)), min_eq_right (by linarith)]
  · rw [max_eq_right (by linarith : (-3:α) ≤ v), min_eq_right (by linarith)]

/-- C4.  For an agent with heading in `[0, 360)` and any output vector,
`apply_outputs` stores the clamp of `output[1] - 0.5` to `[-3, 3]` as
the angular velocity, and the new heading is again in `[0, 360)` after
the `10 × angular_velocity` increment and one add/subtract-360
normalization. -/
theorem apply_outputs_clamp_heading_range (a : Agent α) (outputs : List α)
    (h0 : 0 ≤ a.heading) (h1 : a.heading < 360) :
    (a.apply_outputs outputs).angular_vel =
      min (MAX_ANGULAR_VEL α) (max (-(MAX_ANGULAR_VEL α)) (outputs.getD 1 0 - 1/2)) ∧
    -3 ≤ (a.apply_outputs outputs).angular_vel ∧
    (a.apply_outputs outputs).angular_vel ≤ 3 ∧
    0 ≤ (a.apply_outputs outputs).heading ∧
    (a.apply_outputs outputs).heading < 360 := by
  have hval : (a.apply_outputs outputs).angular_vel =
      if (3:α) ≤ outputs.getD 1 0 - 1/2 then (3:α)
      else if outputs.getD 1 0 - 1/2 < -3 then (-3:α)
      else outputs.getD 1 0 - 1/2 := rfl
  have hclamp : (a.apply_outputs outputs).angular_vel =
      min (MAX_ANGULAR_VEL α) (max (-(MAX_ANGULAR_VEL α)) (outputs.getD 1 0 - 1/2)) := by
    unfold MAX_ANGULAR_VEL
    rw [hval]
    exact clampEq _
  have hvb : -3 ≤ (a.apply_outputs outputs).angular_vel ∧
      (a.apply_outputs outputs).angular_vel ≤ 3 := by
    rw [hval]; split_ifs <;> constructor <;> linarith
  have hhead : (a.apply_outputs outputs).heading =
      if a.heading + 10 * (a.apply_outputs outputs).angular_vel < 0 then
        a.heading + 10 * (a.apply_outputs outputs).angular_vel + 360
      else if 360 ≤ a.heading + 10 * (a.apply_outputs outputs).angular_vel then
        a.heading + 10 * (a.apply_outputs outputs).angular_vel - 360
      else a.heading + 10 * (a.apply_outputs outputs).angular_vel := rfl
  obtain ⟨hb1, hb2⟩ := hvb
  refine ⟨hclamp, hb1, hb2, ?_, ?_⟩ <;>
  · rw [hhead]
    split_ifs <;> linarith

/-- The sector scan always returns an index below 8. -/
theorem find_radar_index_lt_8 (a : α) : find_radar_index a < 8 := by
  simp only [find_radar_index, radar_angle, findRadarIndexAux]
  split_ifs <;> norm_num

/-- At each shared sector boundary value, no sector strictly contains
the bearing and the scan falls back to index 0. -/
theorem find_radar_index_boundary (a : α) (hb : isBoundaryAngle a) :
    find_radar_index a = 0 := by
  rcases hb with rfl | rfl | rfl | rfl | rfl | rfl | rfl | rfl <;>
    · simp only [find_radar_index, radar_angle, findRadarIndexAux]
      norm_num

/-- Away from the boundary values, the returned sector contains the
bearing (sector 0 read as wrapping over 0). -/
theorem find_radar_index_contains (a : α) (h0 : 0 ≤ a) (h1 : a < 360)
    (hnb : ¬ isBoundaryAngle a) : sectorContains (find_radar_index a) a := by
  unfold isBoundaryAngle at hnb
  push_neg at hnb
  obtain ⟨n15, n45, n90, n150, n210, n270, n315, n345⟩ := hnb
  simp only [find_radar_index, radar_angle, findRadarIndexAux]
  split_ifs with q0 q1 q2 q3 q4 q5 q6 q7
  · exact Or.inl ⟨q0.1.le, h1⟩
  · exact ⟨q1.1.le, q1.2⟩
  · exact ⟨q2.1.le, q2.2⟩
  · exact ⟨q3.1.le, q3.2⟩
  · exact ⟨q4.1.le, q4.2⟩
  · exact ⟨q5.1.le, q5.2⟩
  · exact ⟨q6.1.le, q6.2⟩
  · exact ⟨q7.1.le, q7.2⟩
  · push_neg at q0 q1 q2 q3 q4 q5 q6 q7
    have ha15 : a < 15 := by
      rcases lt_or_le a 15 with h | h
      · exact h
      · exfalso
        have h15 : 15 < a := lt_of_le_of_ne h (Ne.symm n15)
        have h45 : 45 < a := lt_of_le_of_ne (q1 h15) (Ne.symm n45)
        have h90 : 90 < a := lt_of_le_of_ne (q2 h45) (Ne.symm n90)
        have h150 : 150 < a := lt_of_le_of_ne (q3 h90) (Ne.symm n150)
        have h210 : 210 < a := lt_of_le_of_ne (q4 h150) (Ne.symm n210)
        have h270 : 270 < a := lt_of_le_of_ne (q5 h210) (Ne.symm n270)
        have h315 : 315 < a := lt_of_le_of_ne (q6 h270) (Ne.symm n315)
        have h345 : 345 < a := lt_of_le_of_ne (q7 h315) (Ne.symm n345)
        have := q0 h345
        linarith
    exact Or.inr ⟨h0, ha15⟩

/-- C8.  For every relative bearing in `[0, 360)`, `find_radar_index`
returns exactly one index below 8; at the shared sector boundary values
it returns 0 by the fallback rule (in particular at 15.0), and at every
other bearing the returned sector's bounds contain the bearing, with
sector 0's bounds `[345, 375)` read as wrapping to cover `[0, 15)`. -/
theorem find_radar_index_total_sector (a : α) (h0 : 0 ≤ a) (h1 : a < 360) :
    find_radar_index a < 8 ∧
    (isBoundaryAngle a → find_radar_index a = 0) ∧
    (¬ isBoundaryAngle a → sectorContains (find_radar_index a) a) :=
  ⟨find_radar_index_lt_8 a, find_radar_index_boundary a, find_radar_index_contains a h0 h1⟩

/-- Closed witness for C8: at the boundary bearing 15.0 the scan
returns sector 0, not sector 1. -/
theorem find_radar_index_total_sector_witness :
    find_radar_index (15 : ℚ) < 8 ∧ find_radar_index (15 : ℚ) = 0 := by
  have h := find_radar_index_total_sector (15 : ℚ) (by norm_num) (by norm_num)
  exact ⟨h.1, h.2.1 (Or.inl rfl)⟩

/-- Closed witness for C4 at a concrete rational agent and the empty
output list. -/
theorem apply_outputs_clamp_heading_range_witness :
    (sampleAgentQ.apply_outputs []).angular_vel =
      min (MAX_ANGULAR_VEL ℚ) (max (-(MAX_ANGULAR_VEL ℚ)) (([] : List ℚ).getD 1 0 - 1/2)) ∧
    -3 ≤ (sampleAgentQ.apply_outputs []).angular_vel ∧
    (sampleAgentQ.apply_outputs []).angular_vel ≤ 3 ∧
    0 ≤ (sampleAgentQ.apply_outputs []).heading ∧
    (sampleAgentQ.apply_outputs []).heading < 360 :=
  apply_outputs_clamp_heading_range sampleAgentQ [] (by norm_num [sampleAgentQ, Agent.init])
    (by norm_num [sampleAgentQ, Agent.init])

/-- Folding `min` over a list never exceeds the seed. -/
theorem foldl_min_le_init (l : List α) : ∀ mn : α, l.foldl min mn ≤ mn := by
  induction l with
  | nil => intro mn; exact le_refl mn
  | cons x l ih => intro mn; exact le_trans (ih (min mn x)) (min_le_left mn x)

/-- Folding `max` over a list never drops below the seed. -/
theorem le_foldl_max_init (l : List α) : ∀ mx : α, mx ≤ l.foldl max mx := by
  induction l with
  | nil => intro mx; exact le_refl mx
  | cons x l ih => intro mx; exact le_trans (le_max_left mx x) (ih (max mx x))

/-- Folding `min` over a list is below every member. -/
theorem foldl_min_le_mem {x : α} {l : List α} (hx : x ∈ l) :
    ∀ mn : α, l.foldl min mn ≤ x := by
  induction l with
  | nil => cases hx
  | cons y l ih =>
    intro mn
    rcases List.mem_cons.mp hx with rfl | hx'
    · exact le_trans (foldl_min_le_init l (min mn x)) (min_le_right mn x)
    · exact ih hx' (min mn y)

/-- Folding `max` over a list is above every member. -/
theorem mem_le_foldl_max {x : α} {l : List α} (hx : x ∈ l) :
    ∀ mx : α, x ≤ l.foldl max mx := by
  induction l with
  | nil => cases hx
  | cons y l ih =>
    intro mx
    rcases List.mem_cons.mp hx with rfl | hx'
    · exact le_trans (le_max_right mx x) (le_foldl_max_init l (max mx x))
    · exact ih hx' (max mx y)

/-- The fold of `min` is the seed or a member of the list. -/
theorem foldl_min_attained (l : List α) :
    ∀ mn : α, l.foldl min mn = mn ∨ l.foldl min mn ∈ l := by
  induction l with
  | nil => intro mn; exact Or.inl rfl
  | cons x l ih =>
    intro mn
    rcases ih (min mn x) with h | h
    · rcases min_choice mn x with hc | hc
      · exact Or.inl (by rw [List.foldl_cons, h, hc])
      · refine Or.inr ?_
        rw [List.foldl_cons, h, hc]
        exact List.mem_cons_self x l
    · exact Or.inr (List.mem_cons_of_mem x h)

/-- The fold of `max` is the seed or a member of the list. -/
theorem foldl_max_attained (l : List α) :
    ∀ mx : α, l.foldl max mx = mx ∨ l.foldl max mx ∈ l := by
  induction l with
  | nil => intro mx; exact Or.inl rfl
  | cons x l ih =>
    intro mx
    rcases ih (max mx x) with h | h
    · rcases max_choice mx x with hc | hc
      · exact Or.inl (by rw [List.foldl_cons, h, hc])
      · refine Or.inr ?_
        rw [List.foldl_cons, h, hc]
        exact List.mem_cons_self x l
    · exact Or.inr (List.mem_cons_of_mem x h)

/-- The source's min/max scan (with its `elif`) computes exactly the
fold of `min` and the fold of `max`, provided the seeds are ordered:
a heading below the current min can never be a new max, so the skipped
`elif` test loses nothing. -/
theorem consensusLoop_eq (l : List α) : ∀ mn mx : α, mn ≤ mx →
    consensusLoop l mn mx = (l.foldl min mn, l.foldl max mx) := by
  induction l with
  | nil => intro mn mx _; rfl
  | cons x l ih =>
    intro mn mx h
    simp only [consensusLoop, List.foldl_cons]
    split_ifs with hx1 hx2
    · rw [ih x mx (le_trans hx1.le h), min_eq_right hx1.le,
        max_eq_left (le_trans hx1.le h)]
    · rw [ih mn x (le_of_lt (lt_of_le_of_lt h hx2)), min_eq_left (not_lt.mp hx1),
        max_eq_right (le_of_lt hx2)]
    · rw [ih mn mx h, min_eq_left (not_lt.mp hx1), max_eq_left (not_lt.mp hx2)]

/-- C6.  For a nonempty environment, `consensus_verified` is true
exactly when every pairwise difference of raw heading values is
strictly below 5 degrees. -/
theorem consensus_verified_iff_max_pairwise (env : Environment α)
    (hne : env.agent_list ≠ []) :
    env.consensus_verified = true ↔
      ∀ a ∈ env.agent_list, ∀ b ∈ env.agent_list, a.heading - b.heading < 5 := by
  obtain ⟨a0, rest, hl⟩ := List.exists_cons_of_ne_nil hne
  unfold Environment.consensus_verified
  rw [hl]
  dsimp only
  rw [consensusLoop_eq _ _ _ (le_refl a0.heading)]
  simp only [decide_eq_true_eq]
  have hmem0 : a0.heading ∈ (a0 :: rest).map Agent.heading := by
    simp
  constructor
  · intro H a ha b hb
    have ham : a.heading ∈ (a0 :: rest).map Agent.heading :=
      List.mem_map_of_mem Agent.heading ha
    have hbm : b.heading ∈ (a0 :: rest).map Agent.heading :=
      List.mem_map_of_mem Agent.heading hb
    have h1 := mem_le_foldl_max ham a0.heading
    have h2 := foldl_min_le_mem hbm a0.heading
    linarith
  · intro H
    have hmax : ∃ x ∈ (a0 :: rest).map Agent.heading,
        ((a0 :: rest).map Agent.heading).foldl max a0.heading = x := by
      rcases foldl_max_attained ((a0 :: rest).map Agent.heading) a0.heading with h | h
      · exact ⟨a0.heading, hmem0, h⟩
      · exact ⟨_, h, rfl⟩
    have hmin : ∃ x ∈ (a0 :: rest).map Agent.heading,
        ((a0 :: rest).map Agent.heading).foldl min a0.heading = x := by
      rcases foldl_min_attained ((a0 :: rest).map Agent.heading) a0.heading with h | h
      · exact ⟨a0.heading, hmem0, h⟩
      · exact ⟨_, h, rfl⟩
    obtain ⟨x, hxm, hx⟩ := hmax
    obtain ⟨y, hym, hy⟩ := hmin
    rw [hx, hy]
    obtain ⟨ax, haxm, haxe⟩ := List.mem_map.mp hxm
    obtain ⟨ay, haym, haye⟩ := List.mem_map.mp hym
    have := H ax haxm ay haym
    rw [haxe, haye] at this
    exact this

/-- Closed witness for C6: headings 10 and 14.9 give consensus, while
headings 10 and 15.0 do not. -/
theorem consensus_verified_iff_max_pairwise_witness :
    envHeading149.consensus_verified = true ∧
    envHeading150.consensus_verified = false := by
  constructor
  · refine (consensus_verified_iff_max_pairwise envHeading149 (by simp [envHeading149])).mpr ?_
    simp only [envHeading149, Agent.init, List.forall_mem_cons, List.forall_mem_nil]
    norm_num
  · simp only [envHeading150, Environment.consensus_verified, Agent.init,
      List.map_cons, List.map_nil, consensusLoop]
    norm_num

/-- C7.  `individual_fitness` returns exactly
`(1 - min(2*pi - |h - a|, |h - a|)/pi) * (1 - |angular_vel|)` with `h`
and `a` the heading and average heading in radians, and under the state
invariants this value lies in `[-2, 1]`. -/
theorem individual_fitness_formula_range (a : Agent ℝ) (avg : ℝ)
    (hh0 : 0 ≤ a.heading) (hh1 : a.heading < 360)
    (ha0 : 0 ≤ avg) (ha1 : avg < 360)
    (hv1 : -3 ≤ a.angular_vel) (hv2 : a.angular_vel ≤ 3) :
    a.individual_fitness avg =
      (1 - min (2 * Real.pi - |deg_to_rad a.heading - deg_to_rad avg|)
          |deg_to_rad a.heading - deg_to_rad avg| / Real.pi) *
        (1 - |a.angular_vel|) ∧
    -2 ≤ a.individual_fitness avg ∧ a.individual_fitness avg ≤ 1 := by
  have heq : a.individual_fitness avg =
      (1 - min (2 * Real.pi - |deg_to_rad a.heading - deg_to_rad avg|)
          |deg_to_rad a.heading - deg_to_rad avg| / Real.pi) *
        (1 - |a.angular_vel|) := rfl
  have hpi := Real.pi_pos
  have habs : |deg_to_rad a.heading - deg_to_rad avg| < 2 * Real.pi := by
    have hlin : deg_to_rad a.heading - deg_to_rad avg =
        (a.heading - avg) * (Real.pi / 180) := by
      unfold deg_to_rad; ring
    rw [hlin, abs_mul, abs_of_pos (by positivity : (0:ℝ) < Real.pi / 180)]
    have h1 : |a.heading - avg| < 360 := abs_lt.mpr ⟨by linarith, by linarith⟩
    calc |a.heading - avg| * (Real.pi / 180)
        < 360 * (Real.pi / 180) := mul_lt_mul_of_pos_right h1 (by positivity)
      _ = 2 * Real.pi := by ring
  set d := |deg_to_rad a.heading - deg_to_rad avg| with hd
  have hd0 : 0 ≤ d := abs_nonneg _
  have hmin0 : 0 ≤ min (2 * Real.pi - d) d := le_min (by linarith) hd0
  have hminpi : min (2 * Real.pi - d) d ≤ Real.pi := by
    rcases le_or_lt d Real.pi with h | h
    · exact le_trans (min_le_right _ _) h
    · exact le_trans (min_le_left _ _) (by linarith)
  have hleft0 : 0 ≤ 1 - min (2 * Real.pi - d) d / Real.pi := by
    have := div_le_one_of_le₀ hminpi (le_of_lt hpi)
    linarith
  have hleft1 : 1 - min (2 * Real.pi - d) d / Real.pi ≤ 1 := by
    have : 0 ≤ min (2 * Real.pi - d) d / Real.pi := div_nonneg hmin0 (le_of_lt hpi)
    linarith
  have habsv0 : 0 ≤ |a.angular_vel| := abs_nonneg _
  have habsv3 : |a.angular_vel| ≤ 3 := abs_le.mpr ⟨hv1, hv2⟩
  refine ⟨heq, ?_, ?_⟩
  · rw [heq]
    nlinarith [hleft0, hleft1, habsv0, habsv3]
  · rw [heq]
    nlinarith [hleft0, hleft1, habsv0, habsv3]

/-- Closed witness for C7 at an agent with heading 0, angular velocity
0 and average heading 0. -/
theorem individual_fitness_formula_range_witness :
    sampleAgentR.individual_fitness 0 =
      (1 - min (2 * Real.pi - |deg_to_rad sampleAgentR.heading - deg_to_rad 0|)
          |deg_to_rad sampleAgentR.heading - deg_to_rad 0| / Real.pi) *
        (1 - |sampleAgentR.angular_vel|) ∧
    -2 ≤ sampleAgentR.individual_fitness 0 ∧ sampleAgentR.individual_fitness 0 ≤ 1 :=
  individual_fitness_formula_range sampleAgentR 0 (by norm_num [sampleAgentR, Agent.init])
    (by norm_num [sampleAgentR, Agent.init]) (by norm_num) (by norm_num)
    (by norm_num [sampleAgentR, Agent.init]) (by norm_num [sampleAgentR, Agent.init])

/-- Shifting the start index of the step iterator by one step. -/
theorem iterSteps_shift (stepf : ℕ → Environment ℝ → Environment ℝ × Bool)
    (i : ℕ) (env : Environment ℝ) :
    ∀ n : ℕ, iterSteps stepf (i + 1) ((stepf i env).1) n = iterSteps stepf i env (n + 1) := by
  intro n
  induction n with
  | zero =>
    show (stepf i env).1 = (stepf (i + 0) (iterSteps stepf i env 0)).1
    rw [Nat.add_zero]
    rfl
  | succ n ih =>
    show (stepf (i + 1 + n) (iterSteps stepf (i + 1) ((stepf i env).1) n)).1 =
      (stepf (i + (n + 1)) (iterSteps stepf i env (n + 1))).1
    rw [ih]
    have : i + 1 + n = i + (n + 1) := by omega
    rw [this]

/-- If the first consensus is reported at step `k` within the budget,
the trial loop returns 1.0 and the environment produced by step `k`:
no later step is executed. -/
theorem evalLoop_early (stepf : ℕ → Environment ℝ → Environment ℝ × Bool) :
    ∀ k fuel i env, k < fuel →
      (∀ j, j < k → (stepf (i + j) (iterSteps stepf i env j)).2 = false) →
      (stepf (i + k) (iterSteps stepf i env k)).2 = true →
      evalLoop stepf fuel i env = (1, iterSteps stepf i env (k + 1)) := by
  intro k
  induction k with
  | zero =>
    intro fuel i env hk _ hcons
    obtain ⟨f, rfl⟩ : ∃ f, fuel = f + 1 := ⟨fuel - 1, by omega⟩
    rw [Nat.add_zero] at hcons
    show (if (stepf i env).2 then ((1 : ℝ), (stepf i env).1)
      else evalLoop stepf f (i + 1) (stepf i env).1) = (1, iterSteps stepf i env 1)
    rw [show iterSteps stepf i env 0 = env from rfl] at hcons
    rw [hcons]
    simp only [if_true]
    show ((1 : ℝ), (stepf i env).1) = (1, (stepf (i + 0) (iterSteps stepf i env 0)).1)
    rw [Nat.add_zero]
    rfl
  | succ k ih =>
    intro fuel i env hk hbefore hcons
    obtain ⟨f, rfl⟩ : ∃ f, fuel = f + 1 := ⟨fuel - 1, by omega⟩
    have h0 : (stepf i env).2 = false := by
      have := hbefore 0 (Nat.succ_pos k)
      rw [Nat.add_zero] at this
      exact this
    show (if (stepf i env).2 then ((1 : ℝ), (stepf i env).1)
      else evalLoop stepf f (i + 1) (stepf i env).1) = (1, iterSteps stepf i env (k + 2))
    rw [h0]
    rw [if_neg Bool.false_ne_true]
    have hres := ih f (i + 1) ((stepf i env).1) (by omega)
      (fun j hj => by
        rw [iterSteps_shift]
        have := hbefore (j + 1) (by omega)
        have harith : i + 1 + j = i + (j + 1) := by omega
        rw [harith]
        exact this)
      (by
        rw [iterSteps_shift]
        have harith : i + 1 + k = i + (k + 1) := by omega
        rw [harith]
        exact hcons)
    rw [hres, iterSteps_shift]

/-- If no step within the budget reports consensus, the trial loop
runs all steps and returns the floored aggregate fitness. -/
theorem evalLoop_exhaust (stepf : ℕ → Environment ℝ → Environment ℝ × Bool) :
    ∀ fuel i env,
      (∀ j, j < fuel → (stepf (i + j) (iterSteps stepf i env j)).2 = false) →
      evalLoop stepf fuel i env =
        (if (iterSteps stepf i env fuel).fitness ≤ 1/100 then 1/100
          else (iterSteps stepf i env fuel).fitness, iterSteps stepf i env fuel) := by
  intro fuel
  induction fuel with
  | zero => intro i env _; rfl
  | succ f ih =>
    intro i env hno
    have h0 : (stepf i env).2 = false := by
      have := hno 0 (Nat.succ_pos f)
      rw [Nat.add_zero] at this
      exact this
    show (if (stepf i env).2 then ((1 : ℝ), (stepf i env).1)
      else evalLoop stepf f (i + 1) (stepf i env).1) = _
    rw [h0]
    rw [if_neg Bool.false_ne_true]
    have hres := ih (i + 1) ((stepf i env).1)
      (fun j hj => by
        rw [iterSteps_shift]
        have := hno (j + 1) (by omega)
        have harith : i + 1 + j = i + (j + 1) := by omega
        rw [harith]
        exact this)
    rw [hres, iterSteps_shift]

/-- The trial loop never returns a fitness below 0.01. -/
theorem evalLoop_floor (stepf : ℕ → Environment ℝ → Environment ℝ × Bool) :
    ∀ fuel i env, 1/100 ≤ (evalLoop stepf fuel i env).1 := by
  intro fuel
  induction fuel with
  | zero =>
    intro i env
    show 1/100 ≤ (if env.fitness ≤ 1/100 then (1:ℝ)/100 else env.fitness, env).1
    dsimp only
    split_ifs with h
    · exact le_refl _
    · linarith [not_le.mp h]
  | succ f ih =>
    intro i env
    show 1/100 ≤ (if (stepf i env).2 then ((1 : ℝ), (stepf i env).1)
      else evalLoop stepf f (i + 1) (stepf i env).1).1
    split_ifs with h
    · norm_num
    · exact ih (i + 1) ((stepf i env).1)

/-- C1.  For every environment and step behaviour (the policy network
and communication randomness folded into `stepf`): if consensus is
first reported at step `k` within the budget, the driver returns 1.0
with the environment exactly as produced by step `k` (no further steps
executed); if the budget is exhausted without consensus, it returns the
aggregate `fitness()` when that exceeds 0.01 and 0.01 otherwise; and
the result is never below 0.01. -/
theorem consensus_evaluate_early_stop_and_floor
    (stepf : ℕ → Environment ℝ → Environment ℝ × Bool) (time_steps : ℕ)
    (env : Environment ℝ) :
    (∀ k, k < time_steps →
      (∀ j, j < k → (stepf j (iterSteps stepf 0 env j)).2 = false) →
      (stepf k (iterSteps stepf 0 env k)).2 = true →
      consensus_simulation_evaluate stepf time_steps env =
        (1, iterSteps stepf 0 env (k + 1))) ∧
    ((∀ j, j < time_steps → (stepf j (iterSteps stepf 0 env j)).2 = false) →
      consensus_simulation_evaluate stepf time_steps env =
        (if (iterSteps stepf 0 env time_steps).fitness ≤ 1/100 then 1/100
          else (iterSteps stepf 0 env time_steps).fitness,
          iterSteps stepf 0 env time_steps)) ∧
    1/100 ≤ (consensus_simulation_evaluate stepf time_steps env).1 := by
  refine ⟨?_, ?_, evalLoop_floor stepf time_steps 0 env⟩
  · intro k hk hb hc
    exact evalLoop_early stepf k time_steps 0 env hk
      (fun j hj => by rw [Nat.zero_add]; exact hb j hj)
      (by rw [Nat.zero_add]; exact hc)
  · intro hno
    exact evalLoop_exhaust stepf time_steps 0 env
      (fun j hj => by rw [Nat.zero_add]; exact hno j hj)

/-- Closed witness for C1: with a step function reporting consensus at
once on a concrete environment and the default 600-step budget, the
driver returns 1.0 and the state after the consensus step. -/
theorem consensus_evaluate_early_stop_and_floor_witness :
    consensus_simulation_evaluate stepfW 600 envW = (1, envW) :=
  (consensus_evaluate_early_stop_and_floor stepfW 600 envW).1 0 (by norm_num)
    (fun j hj => absurd hj (Nat.not_lt_zero j)) rfl

/-- The radar register after `update_radar`: the old register (never
reset, see the definition) with one slot overwritten at the index of
the receiver's heading minus the bearing. -/
theorem update_radar_radar (r s : Agent ℝ) :
    (r.update_radar s).radar = r.radar.set
      (find_radar_index (r.heading - Point.angle
        ⟨r.location.x - s.location.x, r.location.y - s.location.y⟩))
      (some (s.calculate_msg_to r)) := by
  unfold Agent.update_radar
  split_ifs <;> rfl

/-- `update_radar` leaves the receiver's location unchanged. -/
theorem update_radar_location (r s : Agent ℝ) : (r.update_radar s).location = r.location := by
  unfold Agent.update_radar; split_ifs <;> rfl

/-- `update_radar` leaves the receiver's heading unchanged. -/
theorem update_radar_heading (r s : Agent ℝ) : (r.update_radar s).heading = r.heading := by
  unfold Agent.update_radar; split_ifs <;> rfl

/-- `update_radar` leaves the receiver's id unchanged. -/
theorem update_radar_agent_id (r s : Agent ℝ) : (r.update_radar s).agent_id = r.agent_id := by
  unfold Agent.update_radar; split_ifs <;> rfl

/-- `update_radar` leaves the receiver's angular velocity unchanged. -/
theorem update_radar_angular_vel (r s : Agent ℝ) :
    (r.update_radar s).angular_vel = r.angular_vel := by
  unfold Agent.update_radar; split_ifs <;> rfl

/-- `update_radar` leaves the receiver's mode unchanged. -/
theorem update_radar_mode (r s : Agent ℝ) : (r.update_radar s).mode = r.mode := by
  unfold Agent.update_radar; split_ifs <;> rfl

/-- `update_radar` leaves the receiver's first outgoing slot unchanged. -/
theorem update_radar_msg_sen_1 (r s : Agent ℝ) :
    (r.update_radar s).msg_sen_1 = r.msg_sen_1 := by
  unfold Agent.update_radar; split_ifs <;> rfl

/-- `update_radar` leaves the receiver's second outgoing slot unchanged. -/
theorem update_radar_msg_sen_2 (r s : Agent ℝ) :
    (r.update_radar s).msg_sen_2 = r.msg_sen_2 := by
  unfold Agent.update_radar; split_ifs <;> rfl

/-- `update_radar` leaves the receiver's radius unchanged. -/
theorem update_radar_radius (r s : Agent ℝ) : (r.update_radar s).radius = r.radius := by
  unfold Agent.update_radar; split_ifs <;> rfl

/-- `update_radar` leaves the receiver's radar range unchanged. -/
theorem update_radar_radar_range (r s : Agent ℝ) :
    (r.update_radar s).radar_range = r.radar_range := by
  unfold Agent.update_radar; split_ifs <;> rfl

/-- The unit vector along the positive x-axis has polar angle 0. -/
theorem point_angle_east : Point.angle ⟨1, 0⟩ = 0 := by
  have h1 : (⟨(1:ℝ), (0:ℝ)⟩ : ℂ) = 1 := by
    apply Complex.ext <;> simp
  unfold Point.angle
  dsimp only
  rw [h1, Complex.arg_one]
  norm_num

/-- The unit vector along the positive y-axis has polar angle 90. -/
theorem point_angle_north : Point.angle ⟨0, 1⟩ = 90 := by
  have h1 : (⟨(0:ℝ), (1:ℝ)⟩ : ℂ) = Complex.I := by
    apply Complex.ext <;> simp
  have hval : Real.pi / 2 * (180 / Real.pi) = 90 := by
    field_simp
    ring
  unfold Point.angle
  dsimp only
  rw [h1, Complex.arg_I, hval]
  norm_num

/-- The unit vector along the negative y-axis has polar angle 270. -/
theorem point_angle_south : Point.angle ⟨0, -1⟩ = 270 := by
  have h1 : (⟨(0:ℝ), (-1:ℝ)⟩ : ℂ) = -Complex.I := by
    apply Complex.ext <;> simp
  have hval : -(Real.pi / 2) * (180 / Real.pi) = -90 := by
    field_simp
    ring
  unfold Point.angle
  dsimp only
  rw [h1, Complex.arg_neg_I, hval]
  norm_num

/-- Bearing 30 lies strictly inside sector 1. -/
theorem fri30 : find_radar_index (30 : α) = 1 := by
  simp only [find_radar_index, radar_angle, findRadarIndexAux]
  norm_num

/-- Bearing 70 lies strictly inside sector 2. -/
theorem fri70 : find_radar_index (70 : α) = 2 := by
  simp only [find_radar_index, radar_angle, findRadarIndexAux]
  norm_num

/-- Bearing -70 matches no sector and falls back to 0. -/
theorem fri_neg70 : find_radar_index (-70 : α) = 0 := by
  simp only [find_radar_index, radar_angle, findRadarIndexAux]
  norm_num

/-- Bearing -240 matches no sector and falls back to 0. -/
theorem fri_neg240 : find_radar_index (-240 : α) = 0 := by
  simp only [find_radar_index, radar_angle, findRadarIndexAux]
  norm_num

/-- Reading a list at an index just written returns the new value. -/
theorem getD_set_self {β : Type} (l : List β) : ∀ (i : ℕ) (x d : β), i < l.length →
    (l.set i x).getD i d = x := by
  induction l with
  | nil => intro i x d h; simp at h
  | cons a t ih =>
    intro i x d h
    cases i with
    | zero => rfl
    | succ i => exact ih i x d (by simpa using h)

/-- C3.  The radar register is never actually reset, so after two
consecutive `update_radar` calls whose messages land in different
sectors (deliveries from bearing 0 and bearing 270 onto a receiver with
heading 30), both slot 0 and slot 1 are occupied: the at-most-one-slot
invariant claimed by the spec and by the code's own comments fails. -/
theorem update_radar_stale_two_slots :
    ((recvC3.update_radar sendC3a).update_radar sendC3b).radar.getD 0 none ≠ none ∧
    ((recvC3.update_radar sendC3a).update_radar sendC3b).radar.getD 1 none ≠ none := by
  have hrad1 : (recvC3.update_radar sendC3a).radar =
      (List.replicate 8 (none : Option ℝ)).set 1 (some (sendC3a.calculate_msg_to recvC3)) := by
    rw [update_radar_radar]
    have hv : (⟨recvC3.location.x - sendC3a.location.x,
        recvC3.location.y - sendC3a.location.y⟩ : Point ℝ) = ⟨1, 0⟩ := by
      norm_num [recvC3, sendC3a, Agent.init]
    rw [hv, point_angle_east]
    have h30 : recvC3.heading - 0 = 30 := by
      simp [recvC3, Agent.init]
    rw [h30, fri30]
    rfl
  have hloc : (recvC3.update_radar sendC3a).location = recvC3.location :=
    update_radar_location _ _
  have hhead : (recvC3.update_radar sendC3a).heading = recvC3.heading :=
    update_radar_heading _ _
  have hrad2 : ((recvC3.update_radar sendC3a).update_radar sendC3b).radar =
      ((recvC3.update_radar sendC3a).radar).set 0
        (some (sendC3b.calculate_msg_to (recvC3.update_radar sendC3a))) := by
    rw [update_radar_radar, hloc, hhead]
    have hv : (⟨recvC3.location.x - sendC3b.location.x,
        recvC3.location.y - sendC3b.location.y⟩ : Point ℝ) = ⟨0, -1⟩ := by
      norm_num [recvC3, sendC3b, Agent.init]
    rw [hv, point_angle_south]
    have h240 : recvC3.heading - 270 = -240 := by
      norm_num [recvC3, Agent.init]
    rw [h240, fri_neg240]
  rw [hrad2, hrad1]
  constructor <;> simp [List.replicate, List.set, List.getD]

/-- C5 counterexample.  For a receiver with heading 20 receiving from
bearing 90, the sector index claimed by the spec
(the lookup applied to bearing minus heading, here sector 2) holds no
message after `update_radar`, which instead stored the message at the
lookup of heading minus bearing, sector 0. -/
theorem update_radar_sector_counterexample :
    (recvC5.update_radar sendC5).radar.getD
      (find_radar_index (Point.angle ⟨recvC5.location.x - sendC5.location.x,
        recvC5.location.y - sendC5.location.y⟩ - recvC5.heading)) none = none ∧
    (recvC5.update_radar sendC5).radar.getD 0 none ≠ none := by
  have hv : (⟨recvC5.location.x - sendC5.location.x,
      recvC5.location.y - sendC5.location.y⟩ : Point ℝ) = ⟨0, 1⟩ := by
    norm_num [recvC5, sendC5, Agent.init]
  have hrad : (recvC5.update_radar sendC5).radar =
      (List.replicate 8 (none : Option ℝ)).set 0 (some (sendC5.calculate_msg_to recvC5)) := by
    rw [update_radar_radar, hv, point_angle_north]
    have h70 : recvC5.heading - 90 = -70 := by
      norm_num [recvC5, Agent.init]
    rw [h70, fri_neg70]
    rfl
  have hidx : find_radar_index (Point.angle ⟨recvC5.location.x - sendC5.location.x,
      recvC5.location.y - sendC5.location.y⟩ - recvC5.heading) = 2 := by
    rw [hv, point_angle_north]
    have h70 : (90 : ℝ) - recvC5.heading = 70 := by
      norm_num [recvC5, Agent.init]
    rw [h70, fri70]
  rw [hrad, hidx]
  constructor <;> simp [List.replicate, List.set, List.getD]

/-- C5 (amended).  `update_radar` stores the sender's message at the
index obtained by applying the sector lookup to the receiver's heading
minus the geometric bearing from sender to receiver (unnormalized), not
to bearing minus heading. -/
theorem update_radar_heading_minus_bearing (r s : Agent ℝ) (hlen : r.radar.length = 8) :
    (r.update_radar s).radar.getD
      (find_radar_index (r.heading - Point.angle ⟨r.location.x - s.location.x,
        r.location.y - s.location.y⟩)) none = some (s.calculate_msg_to r) := by
  rw [update_radar_radar]
  exact getD_set_self _ _ _ _ (by rw [hlen]; exact find_radar_index_lt_8 _)

/-- Closed witness for the amended C5 at concrete receiver and sender. -/
theorem update_radar_heading_minus_bearing_witness :
    (recvC5.update_radar sendC5).radar.getD
      (find_radar_index (recvC5.heading - Point.angle ⟨recvC5.location.x - sendC5.location.x,
        recvC5.location.y - sendC5.location.y⟩)) none = some (sendC5.calculate_msg_to recvC5) :=
  update_radar_heading_minus_bearing recvC5 sendC5 rfl

/-- `update_radar` preserves the location and id data used by
`communication` to build the candidate-sender lists. -/
theorem agentProj_update_radar (r s : Agent ℝ) :
    agentProj (r.update_radar s) = agentProj r := by
  unfold agentProj
  rw [update_radar_location, update_radar_agent_id]

/-- Writing back the value already stored at an index is a no-op. -/
theorem set_get?_eq {β : Type} (l : List β) : ∀ (i : ℕ) (x : β),
    l.get? i = some x → l.set i x = l := by
  induction l with
  | nil => intro i x h; cases h
  | cons a t ih =>
    intro i x h
    cases i with
    | zero =>
      have hax : a = x := by injection h
      rw [← hax]
      rfl
    | succ i =>
      have := ih i x (by simpa using h)
      simp only [List.set]
      rw [this]

/-- Membership in the candidate-sender list: exactly the agents with a
different id within distance 80 of the receiver. -/
theorem mem_robots_in_range (agents : List (Agent ℝ)) (robot o : Agent ℝ) :
    o ∈ robots_in_range agents robot ↔
      o ∈ agents ∧ o.agent_id ≠ robot.agent_id ∧
        robot.location.distance o.location ≤ 80 := by
  unfold robots_in_range
  rw [List.mem_filter]
  simp only [Bool.and_eq_true, decide_eq_true_eq]

/-- The per-robot communication loop never reaches the empty-candidate
error case when, measured on the original location and id data, every
agent has another agent within distance 80: `update_radar` preserves
that data, so candidate lists stay nonempty throughout the pass. -/
theorem commAux_isSome (sel : ℕ → ℕ) (l0 : List (Agent ℝ))
    (H : ∀ a ∈ l0, ∃ b ∈ l0, b.agent_id ≠ a.agent_id ∧
      a.location.distance b.location ≤ 80) :
    ∀ fuel i agents, agents.map agentProj = l0.map agentProj →
      ∃ out, commAux sel fuel i agents = some out := by
  intro fuel
  induction fuel with
  | zero => intro i agents _; exact ⟨agents, rfl⟩
  | succ f ih =>
    intro i agents hproj
    cases hget : agents.get? i with
    | none =>
      refine ⟨agents, ?_⟩
      unfold commAux
      rw [hget]
    | some robot =>
      have hrobot_mem : robot ∈ agents := List.get?_mem hget
      have hmem_proj : agentProj robot ∈ l0.map agentProj := by
        rw [← hproj]
        exact List.mem_map_of_mem agentProj hrobot_mem
      obtain ⟨a0, ha0, ha0e⟩ := List.mem_map.mp hmem_proj
      obtain ⟨b, hb, hbid, hbdist⟩ := H a0 ha0
      have hbproj : agentProj b ∈ agents.map agentProj := by
        rw [hproj]
        exact List.mem_map_of_mem agentProj hb
      obtain ⟨b', hb', hb'e⟩ := List.mem_map.mp hbproj
      have hb'in : b' ∈ robots_in_range agents robot := by
        rw [mem_robots_in_range]
        have hid1 : b'.agent_id = b.agent_id := congrArg Prod.snd hb'e
        have hid2 : a0.agent_id = robot.agent_id := congrArg Prod.snd ha0e
        have hl1 : b'.location = b.location := congrArg Prod.fst hb'e
        have hl2 : a0.location = robot.location := congrArg Prod.fst ha0e
        refine ⟨hb', ?_, ?_⟩
        · rw [hid1, ← hid2]
          exact hbid
        · rw [hl1, ← hl2]
          exact hbdist
      have hlen0 : (robots_in_range agents robot).length ≠ 0 := by
        intro h0
        rw [List.length_eq_zero.mp h0] at hb'in
        exact List.not_mem_nil b' hb'in
      have hmod : sel i % (robots_in_range agents robot).length <
          (robots_in_range agents robot).length :=
        Nat.mod_lt _ (Nat.pos_of_ne_zero hlen0)
      obtain ⟨selected, hsel⟩ : ∃ sl, (robots_in_range agents robot).get?
          (sel i % (robots_in_range agents robot).length) = some sl := by
        rw [List.get?_eq_get hmod]
        exact ⟨_, rfl⟩
      have hproj' : (agents.set i (robot.update_radar selected)).map agentProj =
          l0.map agentProj := by
        rw [List.map_set, agentProj_update_radar, set_get?_eq, hproj]
        rw [List.get?_map, hget]
        rfl
      obtain ⟨out, hout⟩ := ih (i + 1) (agents.set i (robot.update_radar selected)) hproj'
      refine ⟨out, ?_⟩
      unfold commAux
      rw [hget]
      dsimp only
      rw [if_neg hlen0, hsel]
      exact hout

/-- C9.  Under the precondition that every agent has another agent
within distance 80, `communication` completes without reaching the
empty-candidate error case, and each per-agent candidate list from
which the sender is drawn holds exactly the other agents (distinct id)
at distance at most 80. -/
theorem communication_safe_in_range (sel : ℕ → ℕ) (env : Environment ℝ)
    (H : ∀ a ∈ env.agent_list, ∃ b ∈ env.agent_list,
      b.agent_id ≠ a.agent_id ∧ a.location.distance b.location ≤ 80) :
    (∃ env', env.communication sel = some env') ∧
    ∀ agents robot o, o ∈ robots_in_range agents robot ↔
      o ∈ agents ∧ o.agent_id ≠ robot.agent_id ∧
        robot.location.distance o.location ≤ 80 := by
  constructor
  · obtain ⟨out, hout⟩ :=
      commAux_isSome sel env.agent_list H env.agent_list.length 0 env.agent_list rfl
    refine ⟨{ env with agent_list := out }, ?_⟩
    unfold Environment.communication
    rw [hout]
    rfl
  · exact mem_robots_in_range

/-- Closed witness for C9 on a concrete two-agent environment whose
agents are at distance 1 of each other. -/
theorem communication_safe_in_range_witness :
    ∃ env', envCom.communication (fun _ => 0) = some env' := by
  have hd1 : agentComA.location.distance agentComB.location = 1 := by
    unfold agentComA agentComB Agent.init Point.distance
    dsimp only
    rw [show ((0:ℝ) - 0) ^ 2 + ((0:ℝ) - 1) ^ 2 = 1 by norm_num, Real.sqrt_one]
  have hd2 : agentComB.location.distance agentComA.location = 1 := by
    unfold agentComA agentComB Agent.init Point.distance
    dsimp only
    rw [show ((0:ℝ) - 0) ^ 2 + ((1:ℝ) - 0) ^ 2 = 1 by norm_num, Real.sqrt_one]
  refine (communication_safe_in_range (fun _ => 0) envCom ?_).1
  intro a ha
  rcases List.mem_cons.mp ha with rfl | ha'
  · refine ⟨agentComB, by simp [envCom], ?_, ?_⟩
    · norm_num [agentComA, agentComB, Agent.init]
    · rw [hd1]
      norm_num
  · rcases List.mem_cons.mp ha' with rfl | h'
    · refine ⟨agentComA, by simp [envCom], ?_, ?_⟩
      · norm_num [agentComA, agentComB, Agent.init]
      · rw [hd2]
        norm_num
    · cases h'

/-- C10.  For a sender in mode 0 or 1, `update_radar` leaves every
receiver field other than the radar register and the two incoming
message slots unchanged (the sender itself is untouched: it is only
read, through the pure `calculate_msg_to`). -/
theorem update_radar_frame (r s : Agent ℝ) (hm : s.mode = 0 ∨ s.mode = 1) :
    (r.update_radar s).location = r.location ∧
    (r.update_radar s).heading = r.heading ∧
    (r.update_radar s).angular_vel = r.angular_vel ∧
    (r.update_radar s).mode = r.mode ∧
    (r.update_radar s).msg_sen_1 = r.msg_sen_1 ∧
    (r.update_radar s).msg_sen_2 = r.msg_sen_2 ∧
    (r.update_radar s).agent_id = r.agent_id ∧
    (r.update_radar s).radius = r.radius ∧
    (r.update_radar s).radar_range = r.radar_range :=
  ⟨update_radar_location r s, update_radar_heading r s, update_radar_angular_vel r s,
    update_radar_mode r s, update_radar_msg_sen_1 r s, update_radar_msg_sen_2 r s,
    update_radar_agent_id r s, update_radar_radius r s, update_radar_radar_range r s⟩

/-- Closed witness for C10 at concrete receiver and sender in mode 1. -/
theorem update_radar_frame_witness :
    (recvC3.update_radar sendC3a).location = recvC3.location ∧
    (recvC3.update_radar sendC3a).heading = recvC3.heading ∧
    (recvC3.update_radar sendC3a).angular_vel = recvC3.angular_vel ∧
    (recvC3.update_radar sendC3a).mode = recvC3.mode ∧
    (recvC3.update_radar sendC3a).msg_sen_1 = recvC3.msg_sen_1 ∧
    (recvC3.update_radar sendC3a).msg_sen_2 = recvC3.msg_sen_2 ∧
    (recvC3.update_radar sendC3a).agent_id = recvC3.agent_id ∧
    (recvC3.update_radar sendC3a).radius = recvC3.radius ∧
    (recvC3.update_radar sendC3a).radar_range = recvC3.radar_range :=
  update_radar_frame recvC3 sendC3a (Or.inr rfl)

end Consensus
